import Mathlib

/-
Verification development for the JGCRI/extractor repository.

The file shallowly embeds the two tabular pipelines of the package:
the GCAM-to-Demeter reshape (src/extractor/to_demeter.py) and the
landclass disaggregation (src/extractor/demeter_landclass_split.py and
src/extractor/landclass_redistribute.py).  Numeric cell values are
modelled as exact rationals extended with the IEEE special values
produced by pandas (NaN and signed infinities), so that division by a
zero total and fillna behave as in the source.
-/

/-! ## Category Decoder (src/extractor/to_demeter.py) -/

/-- Splitting of a character list on a delimiter character, modelling
Python str.split with a one-character separator: the empty string
splits to a single empty token, and consecutive delimiters yield empty
tokens. -/
def splitTokensAux (d : Char) : List Char → List Char → List String
  | [], acc => [String.mk acc.reverse]
  | c :: cs, acc =>
    if c = d then String.mk acc.reverse :: splitTokensAux d cs []
    else splitTokensAux d cs (c :: acc)

/-- Splitting of a string on a delimiter character (Python x.split(d)). -/
def splitTokens (d : Char) (x : String) : List String :=
  splitTokensAux d x.data []

/-- GCAM_LANDCLASS_DELIM constant of GcamToDemeter. -/
def GCAM_LANDCLASS_DELIM : String := "_"

/-- GCAM_BROKEN_LANDCLASSES constant of GcamToDemeter: second tokens of
the three landclasses broken by an underscore. -/
def GCAM_BROKEN_LANDCLASSES : List String := ["Tuber", "grass", "tree"]

/-- GCAM_IRR_NAME constant of GcamToDemeter. -/
def GCAM_IRR_NAME : String := "IRR"

/-- GCAM_RFD_NAME constant of GcamToDemeter. -/
def GCAM_RFD_NAME : String := "RFD"

/-- Splitting of a category string on the GCAM landclass delimiter, as
done at the top of each parse method (x.split(cls.GCAM_LANDCLASS_DELIM)). -/
def splitCategory (x : String) : List String :=
  splitTokens '_' x

/-- GcamToDemeter.parse_landclass: if token 1 of the split category is a
broken-landclass token the result joins the first two tokens with the
delimiter, otherwise it is token 0.  Accessing token 1 of a shorter
list raises IndexError in the source, modelled as none. -/
def parse_landclass (x : String) : Option String :=
  match splitCategory x with
  | t0 :: t1 :: _ =>
    if t1 ∈ GCAM_BROKEN_LANDCLASSES then
      some (t0 ++ GCAM_LANDCLASS_DELIM ++ t1)
    else
      some t0
  | _ => none

/-- GcamToDemeter.parse_basin_name: token 2 of the split category when
token 1 is a broken-landclass token, otherwise token 1.  A missing
token raises IndexError in the source, modelled as none. -/
def parse_basin_name (x : String) : Option String :=
  match splitCategory x with
  | _ :: t1 :: rest =>
    if t1 ∈ GCAM_BROKEN_LANDCLASSES then rest.head?
    else some t1
  | _ => none

/-- GcamToDemeter.parse_use: the use suffix is the delimiter followed by
the irrigated marker when the marker occurs among the tokens, else the
delimiter followed by the rainfed marker when that occurs, else empty.
No token position is indexed, so this never raises. -/
def parse_use (x : String) : String :=
  let s := splitCategory x
  if GCAM_IRR_NAME ∈ s then GCAM_LANDCLASS_DELIM ++ GCAM_IRR_NAME
  else if GCAM_RFD_NAME ∈ s then GCAM_LANDCLASS_DELIM ++ GCAM_RFD_NAME
  else ""

/-- Errors surfaced by the extractor pipelines: the IndexError raised by
the parse methods on a category string with too few tokens (the spec's
MalformedCategoryError), and the AttributeError raised by extract_land
when CSV output is requested without an output path (the spec's
MissingOutputPathError). -/
inductive ExtractorError where
  | malformedCategory
  | missingOutputPath
deriving DecidableEq

deriving instance DecidableEq for Except

/-- Full category decoding as performed row-wise by extract_land: the
final landclass is parse_landclass with the parse_use suffix appended
(the landclass column += use step), paired with the basin abbreviation
from parse_basin_name.  Any IndexError of the parse methods aborts the
decode with no partial result. -/
def decode_category (x : String) : Except ExtractorError (String × String) :=
  match parse_landclass x, parse_basin_name x with
  | some lc, some b => .ok (lc ++ parse_use x, b)
  | _, _ => .error .malformedCategory

/-- A token list is insufficient for the fixed token-position indexing of
the parse methods when it has fewer than two tokens, or exactly two
while the second is a broken-landclass token (so that token 2 is
indexed but missing). -/
def tokensInsufficient (s : List String) : Bool :=
  match s with
  | _ :: t1 :: rest => if t1 ∈ GCAM_BROKEN_LANDCLASSES then rest.isEmpty else false
  | _ => true

/-! ## Extended numeric cell values

Pandas stores the value columns as float64.  Cell arithmetic is
modelled with exact rationals extended by the IEEE special values that
the two pipelines can actually produce: NaN (a missing value after a
left join, or 0/0) and the signed infinities (a nonzero value divided
by a zero total). -/

/-- Numeric cell value: an exact rational, NaN, or a signed infinity. -/
inductive PVal where
  | num (q : ℚ)
  | nan
  | inf
  | neginf
deriving DecidableEq

/-- Multiplication of extended cell values, following IEEE float
semantics: NaN is absorbing, and an infinity times a finite value takes
the sign of that value, with 0 times an infinity giving NaN. -/
def mulP : PVal → PVal → PVal
  | PVal.num a, PVal.num b => PVal.num (a * b)
  | PVal.nan, _ => PVal.nan
  | _, PVal.nan => PVal.nan
  | PVal.num a, PVal.inf => if 0 < a then PVal.inf else if a < 0 then PVal.neginf else PVal.nan
  | PVal.num a, PVal.neginf => if 0 < a then PVal.neginf else if a < 0 then PVal.inf else PVal.nan
  | PVal.inf, PVal.num b => if 0 < b then PVal.inf else if b < 0 then PVal.neginf else PVal.nan
  | PVal.neginf, PVal.num b => if 0 < b then PVal.neginf else if b < 0 then PVal.inf else PVal.nan
  | PVal.inf, PVal.inf => PVal.inf
  | PVal.inf, PVal.neginf => PVal.neginf
  | PVal.neginf, PVal.inf => PVal.neginf
  | PVal.neginf, PVal.neginf => PVal.inf

/-- Division of extended cell values, following IEEE float semantics on
the finite cases used by the pipelines: a/0 is NaN when a = 0 and a
signed infinity otherwise. -/
def divP : PVal → PVal → PVal
  | PVal.num a, PVal.num b =>
    if b = 0 then
      (if a = 0 then PVal.nan else if 0 < a then PVal.inf else PVal.neginf)
    else PVal.num (a / b)
  | PVal.nan, _ => PVal.nan
  | _, PVal.nan => PVal.nan
  | PVal.inf, PVal.num _ => PVal.inf
  | PVal.neginf, PVal.num _ => PVal.neginf
  | _, PVal.inf => PVal.num 0
  | _, PVal.neginf => PVal.num 0

/-- Replacement of NaN by 0 on a single cell, modelling fillna(0):
infinities are not null and are left untouched. -/
def fill0 : PVal → PVal
  | PVal.nan => PVal.num 0
  | v => v

/-! ## Reshape Engine (GcamToDemeter.extract_land) -/

/-- Row of the table returned by the GCAM land-allocation query:
scenario, region name, the encoded category string, year, units and
the allocation value. -/
structure QueryRow where
  scenario : String
  region : String
  land_allocation : String
  year : Int
  units : String
  value : ℚ
deriving DecidableEq

/-- Lookup of a name in a reference dictionary (the basin and region
dictionaries built from the reference CSV files).  A missing key maps
to none, modelling the NaN produced by Series.map on an unmapped name. -/
def lookupId (d : List (String × Int)) (k : String) : Option Int :=
  (d.find? (fun p => p.1 = k)).map (fun p => p.2)

/-- Row of the decoded table built by extract_land before the pivot:
region name, basin abbreviation, the two mapped ids (none when the
lookup missed), the suffixed landclass, year and value.  The units and
scenario columns dropped by the source are omitted. -/
structure MappedRow where
  region : String
  glu_name : String
  region_id : Option Int
  metric_id : Option Int
  landclass : String
  year : Int
  value : ℚ
deriving DecidableEq

/-- Decoding of one query row as performed column-wise by extract_land:
category decode (landclass, basin, use suffix) plus the two dictionary
lookups.  A malformed category aborts the whole extraction, modelled
as none. -/
def mapRow (dreg dbas : List (String × Int)) (q : QueryRow) : Option MappedRow :=
  match decode_category q.land_allocation with
  | .error _ => none
  | .ok (lc, b) => some ⟨q.region, b, lookupId dreg q.region, lookupId dbas b, lc, q.year, q.value⟩

/-- Columnwise application of a fallible per-row function, modelling
Series.apply: the first raising row aborts the whole application. -/
def applyColumn (f : α → Option β) : List α → Option (List β)
  | [] => some []
  | a :: l =>
    match f a, applyColumn f l with
    | some b, some bs => some (b :: bs)
    | _, _ => none

/-- Index key of the pivot: region name, basin abbreviation, region id,
metric id and landclass.  The ids are plain integers because
pivot_table drops any row whose index contains a null. -/
structure PivKey where
  region : String
  glu_name : String
  region_id : Int
  metric_id : Int
  landclass : String
deriving DecidableEq

/-- Row entering the pivot: a fully resolved key plus year and value. -/
structure PivIn where
  key : PivKey
  year : Int
  value : ℚ
deriving DecidableEq

/-- Restriction of the decoded rows to those entering the pivot:
pivot_table silently drops every row with a null in one of its index
levels, so only rows where both id lookups succeeded survive. -/
def pivotInputOf (rows : List MappedRow) : List PivIn :=
  rows.filterMap (fun m =>
    match m.region_id, m.metric_id with
    | some rid, some mid => some ⟨⟨m.region, m.glu_name, rid, mid, m.landclass⟩, m.year, m.value⟩
    | _, _ => none)

/-- Pivoted wide table: the list of year columns and one row per key,
each row carrying one cell per year column. -/
structure PivotTable where
  yearCols : List Int
  rows : List (PivKey × List (Int × ℚ))
deriving DecidableEq

/-- The pivot_table step: one output row per distinct index key, one
column per distinct year occurring in the input, each cell the sum of
the values at that key and year (fill_value 0 gives an empty sum for a
missing combination). -/
def pivot (pin : List PivIn) : PivotTable :=
  let keys := (pin.map (fun p => p.key)).dedup
  let yrs := (pin.map (fun p => p.year)).dedup
  { yearCols := yrs,
    rows := keys.map (fun k => (k, yrs.map (fun y =>
      (y, ((pin.filter (fun p => decide (p.key = k ∧ p.year = y))).map (fun p => p.value)).sum)))) }

/-- The rows surviving the year filter of extract_land (the isin test on
the requested year list). -/
def filteredRows (qrows : List QueryRow) (l_yrs : List Int) : List QueryRow :=
  qrows.filter (fun q => decide (q.year ∈ l_yrs))

/-- The decoded rows of extract_land, written with filterMap: when every
row decodes this coincides with the columnwise application. -/
def mappedRowsSpec (dreg dbas : List (String × Int)) (qrows : List QueryRow) (l_yrs : List Int) :
    List MappedRow :=
  (filteredRows qrows l_yrs).filterMap (mapRow dreg dbas)

/-- GcamToDemeter.extract_land: filter the query rows to the requested
years, decode categories and map ids, pivot, and finally either return
the pivot (no CSV output requested), write it to the configured path,
or raise when CSV output is requested with no path.  The optional
string in the result records the path written to, so an error result
carries no write. -/
def extract_land (qrows : List QueryRow) (l_yrs : List Int) (dreg dbas : List (String × Int))
    (output_to_csv : Bool) (f_out : Option String) :
    Except ExtractorError (PivotTable × Option String) :=
  match applyColumn (mapRow dreg dbas) (filteredRows qrows l_yrs) with
  | none => .error .malformedCategory
  | some mrows =>
    let piv := pivot (pivotInputOf mrows)
    if output_to_csv then
      match f_out with
      | none => .error .missingOutputPath
      | some p => .ok (piv, some p)
    else .ok (piv, none)

/-! ## Fraction Calculator (GcamLandclassSplit.calc_observed_fraction)

The observed reference table is read with usecols restricted to the
region id field, the chosen metric field and the observed landclass
columns, so a row is modelled by exactly those fields. -/

/-- Row of the observed reference table after the usecols restriction:
region id, metric id, and the observed landclass value columns kept as
an association list. -/
structure ObsRow where
  region_id : Int
  metric : Int
  vals : List (String × ℚ)
deriving DecidableEq

/-- Value of an observed landclass column on one row. -/
def lookupRat (l : List (String × ℚ)) (k : String) : ℚ :=
  match l.find? (fun p => p.1 = k) with
  | some p => p.2
  | none => 0

/-- Distinct (region_id, metric) group keys of the observed table, as
formed by the groupby. -/
def groupKeys (obs : List ObsRow) : List (Int × Int) :=
  (obs.map (fun r => (r.region_id, r.metric))).dedup

/-- Groupby sum of one observed landclass column at one group key. -/
def classSum (obs : List ObsRow) (k : Int × Int) (lc : String) : ℚ :=
  ((obs.filter (fun r => decide (r.region_id = k.1 ∧ r.metric = k.2))).map
    (fun r => lookupRat r.vals lc)).sum

/-- The total column: row-wise sum of the observed landclass sums at one
group key. -/
def groupTotal (obs : List ObsRow) (lcs : List String) (k : Int × Int) : ℚ :=
  (lcs.map (classSum obs k)).sum

/-- Names of the fraction columns, one per observed landclass. -/
def fracNames (lcs : List String) : List String :=
  lcs.map (fun lc => "frac_" ++ lc)

/-- Row of the fraction table left after the drop: the combined
region-metric key string and one fraction cell per observed landclass. -/
structure FracRow where
  key : String
  fracs : List (String × PVal)
deriving DecidableEq

namespace DemeterLandclassSplit

/-- GcamLandclassSplit.calc_observed_fraction of
src/extractor/demeter_landclass_split.py: group the observed table by
(region_id, metric), build the combined key string, divide each
landclass group sum by the total of the group sums, drop the helper
columns and fill the NaN fractions of all-zero groups with 0. -/
def calc_observed_fraction (obs : List ObsRow) (lcs : List String) : List FracRow :=
  (groupKeys obs).map (fun k =>
    { key := toString k.1 ++ "_" ++ toString k.2,
      fracs := lcs.map (fun lc =>
        ("frac_" ++ lc,
         fill0 (divP (PVal.num (classSum obs k lc)) (PVal.num (groupTotal obs lcs k))))) })

end DemeterLandclassSplit

namespace LandclassRedistribute

/-- GcamLandclassSplit.calc_observed_fraction of
src/extractor/landclass_redistribute.py, line for line the same
computation as the demeter_landclass_split.py copy. -/
def calc_observed_fraction (obs : List ObsRow) (lcs : List String) : List FracRow :=
  (groupKeys obs).map (fun k =>
    { key := toString k.1 ++ "_" ++ toString k.2,
      fracs := lcs.map (fun lc =>
        ("frac_" ++ lc,
         fill0 (divP (PVal.num (classSum obs k lc)) (PVal.num (groupTotal obs lcs k))))) })

end LandclassRedistribute

/-! ## Disaggregator (disaggregate_landclass and process_basin) -/

/-- Row of the projected table: the Demeter region_id, metric_id and
landclass fields plus the remaining numeric columns (year columns, and
during processing the joined fraction columns) as an association list
in column order. -/
structure PrjRow where
  region_id : Int
  metric_id : Int
  landclass : String
  cells : List (String × PVal)
deriving DecidableEq

/-- Projected table: explicit column-name list plus the rows. -/
structure PrjTable where
  cols : List String
  rows : List PrjRow
deriving DecidableEq

/-- Value of a named numeric column on a row's cell list; a missing
column reads as NaN (the null of a float column). -/
def getCellA (cells : List (String × PVal)) (c : String) : PVal :=
  match cells.find? (fun p => p.1 = c) with
  | some p => p.2
  | none => PVal.nan

/-- Name of the combined region and subregion field,
'reg_' + metric.split('_')[0]. -/
def subregionField (metric : String) : String :=
  "reg_" ++ (splitTokens '_' metric).headD ""

/-- The combined region_metric key of a projected row,
str(region_id) + '_' + str(metric_id). -/
def compKey (r : PrjRow) : String :=
  toString r.region_id ++ "_" ++ toString r.metric_id

/-- The left merge of the fraction table onto one projected row by the
combined key: the fraction columns are appended to the row's cells,
each holding the matching fraction row's value, or NaN when the key
has no match. -/
def mergeRow (obsT : List FracRow) (lcs : List String) (r : PrjRow) : PrjRow :=
  { r with cells := r.cells ++ lcs.map (fun lc =>
      ("frac_" ++ lc,
       match obsT.find? (fun t => t.key = compKey r) with
       | some fr => getCellA fr.fracs ("frac_" ++ lc)
       | none => PVal.nan)) }

/-- One assignment idf[yr] *= idf['frac_' + lc]: every cell named yr is
multiplied by the row's current fraction cell for lc.  A year column
absent from the row is left untouched here, whereas pandas raises
KeyError on the idf[yr] getitem; that error path is not modelled, so
every statement about the disaggregators is made at (or hypothesizes)
tables that carry the listed year columns, where the two coincide. -/
def updateYear (lc : String) (r : PrjRow) (yr : String) : PrjRow :=
  { r with cells := r.cells.map (fun p =>
      if p.1 = yr then (p.1, mulP p.2 (getCellA r.cells ("frac_" ++ lc))) else p) }

/-- The per-landclass loop body: copy the target rows, rename the
landclass, and multiply each listed year column in turn by the lc
fraction. -/
def applyFrac (yrs : List String) (lc : String) (r : PrjRow) : PrjRow :=
  yrs.foldl (updateYear lc) { r with landclass := lc }

/-- Processing columns dropped at the end of disaggregate_landclass: the
fraction columns followed by the combined subregion key column. -/
def helperNames (metric : String) (lcs : List String) : List String :=
  fracNames lcs ++ [subregionField metric]

/-- Removal of the processing cells from one row. -/
def dropHelperCells (metric : String) (lcs : List String) (r : PrjRow) : PrjRow :=
  { r with cells := r.cells.filter (fun p => decide (¬ p.1 ∈ helperNames metric lcs)) }

/-- Removal of the processing columns from a table: the column list is
filtered and every row loses its processing cells. -/
def dropProcessing (metric : String) (lcs : List String) (t : PrjTable) : PrjTable :=
  { cols := t.cols.filter (fun c => decide (¬ c ∈ helperNames metric lcs)),
    rows := t.rows.map (dropHelperCells metric lcs) }

namespace DemeterLandclassSplit

/-- GcamLandclassSplit.disaggregate_landclass of
src/extractor/demeter_landclass_split.py: compute the observed
fractions, left-join them onto the projected table by the combined
key, split off the target-landclass rows, emit for each observed
landclass a renamed copy of the target rows with every listed year
column scaled by that landclass's fraction, prepend each copy set to
the pass-through rows, and finally drop the processing columns.  The
year list is the user-supplied gcam_year_list, stringified in the
constructor. -/
def disaggregate_landclass (obs : List ObsRow) (prj : PrjTable) (target : String)
    (lcs : List String) (metric : String) (gcam_year_list : List Nat) : PrjTable :=
  let yrs := gcam_year_list.map (fun i => toString i)
  let obsT := calc_observed_fraction obs lcs
  let merged := prj.rows.map (mergeRow obsT lcs)
  let lc_df := merged.filter (fun r => decide (r.landclass = target))
  let out0 := merged.filter (fun r => decide (¬ r.landclass = target))
  let finalRows := lcs.foldl (fun acc lc => (lc_df.map (applyFrac yrs lc)) ++ acc) out0
  dropProcessing metric lcs
    { cols := prj.cols ++ [subregionField metric] ++ fracNames lcs, rows := finalRows }

end DemeterLandclassSplit

namespace LandclassRedistribute

/-- GCAM_YRS constant of src/extractor/landclass_redistribute.py: the
stringified years 2010, 2015, ..., 2100. -/
def GCAM_YRS : List String :=
  (List.range' 2010 19 5).map (fun i => toString i)

/-- GcamLandclassSplit.process_basin of
src/extractor/landclass_redistribute.py: the same computation as
disaggregate_landclass but with the hard-coded GCAM_YRS year list, and
without the final drop of the processing columns. -/
def process_basin (obs : List ObsRow) (prj : PrjTable) (target : String)
    (lcs : List String) (metric : String) : PrjTable :=
  let yrs := GCAM_YRS
  let obsT := calc_observed_fraction obs lcs
  let merged := prj.rows.map (mergeRow obsT lcs)
  let lc_df := merged.filter (fun r => decide (r.landclass = target))
  let out0 := merged.filter (fun r => decide (¬ r.landclass = target))
  let finalRows := lcs.foldl (fun acc lc => (lc_df.map (applyFrac yrs lc)) ++ acc) out0
  { cols := prj.cols ++ [subregionField metric] ++ fracNames lcs, rows := finalRows }

end LandclassRedistribute

/-! ## Helper lemmas -/

/-- Finding by key commutes with a map that preserves keys. -/
theorem find?_map_fst_preserve {α : Type} (g : String × α → String × α)
    (hg : ∀ p, (g p).1 = p.1) (l : List (String × α)) (c : String) :
    (l.map g).find? (fun p => decide (p.1 = c))
      = (l.find? (fun p => decide (p.1 = c))).map g := by
  induction l with
  | nil => rfl
  | cons p t ih =>
    simp only [List.map_cons, List.find?, hg p]
    cases h : decide (p.1 = c) with
    | true => rfl
    | false => exact ih

/-- Finding by key over a list of key-value pairs built with map reduces
to finding the element whose built key matches. -/
theorem find?_map_key {α β : Type} (k : β → String) (v : β → α) (l : List β) (c : String) :
    (l.map (fun b => (k b, v b))).find? (fun p => decide (p.1 = c))
      = (l.find? (fun b => decide (k b = c))).map (fun b => (k b, v b)) := by
  induction l with
  | nil => rfl
  | cons b t ih =>
    simp only [List.map_cons, List.find?]
    cases h : decide (k b = c) with
    | true => rfl
    | false => exact ih

/-- Two pointwise equal boolean predicates find the same element. -/
theorem find?_congr_pred {α : Type} (p q : α → Bool) (h : ∀ a, p a = q a) (l : List α) :
    l.find? p = l.find? q := by
  induction l with
  | nil => rfl
  | cons a t ih =>
    simp only [List.find?, h a]
    cases q a with
    | true => rfl
    | false => exact ih

/-- Finding an element equal to a member returns that member. -/
theorem find?_eq_self_of_mem {α : Type} [DecidableEq α] (a : α) (l : List α) (h : a ∈ l) :
    l.find? (fun x => decide (x = a)) = some a := by
  induction l with
  | nil => cases h
  | cons b t ih =>
    by_cases hb : b = a
    · simp [List.find?, hb]
    · have ht : a ∈ t := by
        cases h with
        | head => exact absurd rfl hb
        | tail _ h => exact h
      simp [List.find?, hb, ih ht]

/-- Filtering by a predicate that keeps everything the finder accepts
does not change the found element. -/
theorem find?_filter_keep {α : Type} (l : List α) (pr keep : α → Bool)
    (h : ∀ a, pr a = true → keep a = true) :
    (l.filter keep).find? pr = l.find? pr := by
  induction l with
  | nil => rfl
  | cons a t ih =>
    cases hk : keep a with
    | true =>
      rw [List.filter_cons_of_pos hk]
      simp only [List.find?]
      cases hp : pr a with
      | true => rfl
      | false => exact ih
    | false =>
      rw [List.filter_cons_of_neg (by simp [hk])]
      have hp : pr a = false := by
        cases hpa : pr a with
        | false => rfl
        | true => rw [h a hpa] at hk; cases hk
      simp only [List.find?, hp]
      exact ih

/-- Appending a string on the left is cancellative. -/
theorem string_append_left_cancel_iff (s a b : String) : (s ++ a = s ++ b) ↔ a = b := by
  constructor
  · intro h
    have hd : s.data ++ a.data = s.data ++ b.data := by
      have := congrArg String.data h
      simpa [String.data_append] using this
    have h2 := List.append_cancel_left hd
    cases a; cases b
    exact congrArg String.mk h2
  · intro h; rw [h]

/-- A left fold that prepends one block per element produces the blocks
in reverse element order, in front of the initial accumulator. -/
theorem foldl_prepend {α β : Type} (g : α → List β) (lcs : List α) (init : List β) :
    lcs.foldl (fun acc lc => g lc ++ acc) init = (lcs.reverse.map g).flatten ++ init := by
  induction lcs generalizing init with
  | nil => simp
  | cons a t ih =>
    simp only [List.foldl_cons, ih (g a ++ init), List.reverse_cons, List.map_append,
      List.flatten_append, List.map_cons, List.map_nil, List.flatten_cons, List.flatten_nil,
      List.append_nil, List.append_assoc]

/-- Distributing a division over a list sum. -/
theorem sum_map_div {α : Type} (l : List α) (f : α → ℚ) (T : ℚ) :
    (l.map (fun a => f a / T)).sum = (l.map f).sum / T := by
  induction l with
  | nil => simp
  | cons a t ih => simp [ih, add_div]

/-- Factoring a common multiplier out of a list sum. -/
theorem sum_map_mul_const {α : Type} (l : List α) (f : α → ℚ) (V : ℚ) :
    (l.map (fun a => V * f a)).sum = V * (l.map f).sum := by
  induction l with
  | nil => simp
  | cons a t ih => simp [ih, mul_add]

/-- A columnwise application over rows that all succeed returns exactly
the filterMap of the per-row function. -/
theorem applyColumn_eq_some {α β : Type} (f : α → Option β) (l : List α)
    (h : ∀ a ∈ l, (f a).isSome) :
    applyColumn f l = some (l.filterMap f) := by
  induction l with
  | nil => rfl
  | cons a t ih =>
    obtain ⟨b, hb⟩ := Option.isSome_iff_exists.mp (h a (List.mem_cons_self a t))
    rw [List.filterMap_cons]
    simp only [applyColumn, hb, ih (fun x hx => h x (List.mem_cons_of_mem a hx))]

/-- A successful columnwise application returns the filterMap of the
per-row function. -/
theorem applyColumn_some_eq {α β : Type} (f : α → Option β) (l : List α) (M : List β)
    (h : applyColumn f l = some M) : M = l.filterMap f := by
  induction l generalizing M with
  | nil =>
    have : M = [] := (Option.some.inj h).symm
    rw [this]
    rfl
  | cons a t ih =>
    revert h
    unfold applyColumn
    cases hfa : f a with
    | none => intro h; cases h
    | some b =>
      cases hac : applyColumn f t with
      | none => intro h; cases h
      | some bs =>
        intro h
        have hM : M = b :: bs := (Option.some.inj h).symm
        rw [hM, List.filterMap_cons, hfa, ih bs hac]

/-- Projecting the keys back out of key-tagged pairs returns the keys. -/
theorem map_fst_map_pair {α β : Type} (l : List α) (g : α → β) :
    (l.map (fun k => (k, g k))).map Prod.fst = l := by
  induction l with
  | nil => rfl
  | cons a t ih => simp [ih]

/-- updateYear leaves every cell not named by the updated year
untouched. -/
theorem getCellA_updateYear_ne (lc : String) (r : PrjRow) (y c : String) (h : ¬ c = y) :
    getCellA (updateYear lc r y).cells c = getCellA r.cells c := by
  unfold updateYear
  simp only
  generalize getCellA r.cells ("frac_" ++ lc) = fv
  unfold getCellA
  rw [find?_map_fst_preserve (fun p => if p.1 = y then (p.1, mulP p.2 fv) else p)
    (by intro p; by_cases hp : p.1 = y <;> simp [hp])]
  cases hf : r.cells.find? (fun p => decide (p.1 = c)) with
  | none => rfl
  | some p =>
    have hp : p.1 = c := by simpa using List.find?_some hf
    simp [hp, h]

/-- updateYear multiplies the updated year's cell by the row's fraction
cell; a missing year cell stays missing (NaN times anything is NaN). -/
theorem getCellA_updateYear_eq (lc : String) (r : PrjRow) (y : String) :
    getCellA (updateYear lc r y).cells y
      = mulP (getCellA r.cells y) (getCellA r.cells ("frac_" ++ lc)) := by
  unfold updateYear
  simp only
  generalize getCellA r.cells ("frac_" ++ lc) = fv
  unfold getCellA
  rw [find?_map_fst_preserve (fun p => if p.1 = y then (p.1, mulP p.2 fv) else p)
    (by intro p; by_cases hp : p.1 = y <;> simp [hp])]
  cases hf : r.cells.find? (fun p => decide (p.1 = y)) with
  | none =>
    simp only [Option.map_none]
    cases fv <;> rfl
  | some p =>
    have hp : p.1 = y := by simpa using List.find?_some hf
    simp [hp]

/-- updateYear changes no row field other than the cells. -/
theorem updateYear_fields (lc : String) (r : PrjRow) (y : String) :
    (updateYear lc r y).region_id = r.region_id ∧ (updateYear lc r y).metric_id = r.metric_id ∧
      (updateYear lc r y).landclass = r.landclass :=
  ⟨rfl, rfl, rfl⟩

/-- A fold of year updates leaves every cell whose name is not among the
updated years untouched. -/
theorem getCellA_foldl_updateYear_not_mem (lc : String) (yrs : List String) (r : PrjRow)
    (c : String) (h : ¬ c ∈ yrs) :
    getCellA ((yrs.foldl (updateYear lc) r).cells) c = getCellA r.cells c := by
  induction yrs generalizing r with
  | nil => rfl
  | cons y t ih =>
    have hcy : ¬ c = y := fun hc => h (hc ▸ List.mem_cons_self y t)
    have hct : ¬ c ∈ t := fun hc => h (List.mem_cons_of_mem y hc)
    rw [List.foldl_cons, ih (updateYear lc r y) hct, getCellA_updateYear_ne lc r y c hcy]

/-- A fold of year updates preserves the row fields other than cells. -/
theorem foldl_updateYear_fields (lc : String) (yrs : List String) (r : PrjRow) :
    (yrs.foldl (updateYear lc) r).region_id = r.region_id ∧
      (yrs.foldl (updateYear lc) r).metric_id = r.metric_id ∧
      (yrs.foldl (updateYear lc) r).landclass = r.landclass := by
  induction yrs generalizing r with
  | nil => exact ⟨rfl, rfl, rfl⟩
  | cons y t ih => simpa using ih (updateYear lc r y)

/-- The year-update loop of the disaggregators: a year listed once, with
the fraction column not among the year names, ends with its cell equal
to its starting value times the fraction cell's starting value. -/
theorem getCellA_foldl_updateYear (lc : String) (yrs : List String) (r : PrjRow) (yr : String)
    (hyr : yr ∈ yrs) (hnd : yrs.Nodup) (hfc : ¬ ("frac_" ++ lc) ∈ yrs) :
    getCellA ((yrs.foldl (updateYear lc) r).cells) yr
      = mulP (getCellA r.cells yr) (getCellA r.cells ("frac_" ++ lc)) := by
  induction yrs generalizing r with
  | nil => cases hyr
  | cons y t ih =>
    rw [List.foldl_cons]
    rcases List.mem_cons.mp hyr with hyy | hyt
    · subst hyy
      have hnt : ¬ yr ∈ t := (List.nodup_cons.mp hnd).1
      rw [getCellA_foldl_updateYear_not_mem lc t (updateYear lc r yr) yr hnt,
        getCellA_updateYear_eq lc r yr]
    · have hne : ¬ yr = y := by
        intro he
        exact (List.nodup_cons.mp hnd).1 (he ▸ hyt)
      have hfct : ¬ ("frac_" ++ lc) ∈ t := fun hc => hfc (List.mem_cons_of_mem y hc)
      have hfcy : ¬ ("frac_" ++ lc) = y := fun hc => hfc (hc ▸ List.mem_cons_self y t)
      rw [ih (updateYear lc r y) hyt (List.nodup_cons.mp hnd).2 hfct,
        getCellA_updateYear_ne lc r y yr hne,
        getCellA_updateYear_ne lc r y ("frac_" ++ lc) hfcy]

/-- applyFrac changes the landclass to the observed class and keeps the
id fields. -/
theorem applyFrac_fields (yrs : List String) (lc : String) (r : PrjRow) :
    (applyFrac yrs lc r).region_id = r.region_id ∧ (applyFrac yrs lc r).metric_id = r.metric_id ∧
      (applyFrac yrs lc r).landclass = lc := by
  unfold applyFrac
  simpa using foldl_updateYear_fields lc yrs { r with landclass := lc }

/-- The year cell produced by applyFrac: starting value times the
fraction cell, under the same side conditions as the update loop. -/
theorem getCellA_applyFrac (yrs : List String) (lc : String) (r : PrjRow) (yr : String)
    (hyr : yr ∈ yrs) (hnd : yrs.Nodup) (hfc : ¬ ("frac_" ++ lc) ∈ yrs) :
    getCellA (applyFrac yrs lc r).cells yr
      = mulP (getCellA r.cells yr) (getCellA r.cells ("frac_" ++ lc)) := by
  unfold applyFrac
  exact getCellA_foldl_updateYear lc yrs { r with landclass := lc } yr hyr hnd hfc

/-- Reading a cell from an appended cell list when the left part lacks
the name reads from the right part. -/
theorem getCellA_append_right (l₁ l₂ : List (String × PVal)) (c : String)
    (h : l₁.find? (fun p => decide (p.1 = c)) = none) :
    getCellA (l₁ ++ l₂) c = getCellA l₂ c := by
  unfold getCellA
  rw [List.find?_append, h, Option.none_or]

/-- Reading a cell from an appended cell list when the left part has the
name reads from the left part. -/
theorem getCellA_append_left (l₁ l₂ : List (String × PVal)) (c : String)
    (h : (l₁.find? (fun p => decide (p.1 = c))).isSome) :
    getCellA (l₁ ++ l₂) c = getCellA l₁ c := by
  unfold getCellA
  rw [List.find?_append]
  cases hf : l₁.find? (fun p => decide (p.1 = c)) with
  | none => rw [hf] at h; cases h
  | some p => rfl

/-- Reading a cell from a mapped key-value list reduces to finding the
element whose built key matches. -/
theorem getCellA_map_key {β : Type} (k : β → String) (v : β → PVal) (l : List β) (c : String) :
    getCellA (l.map (fun b => (k b, v b))) c
      = (match l.find? (fun b => decide (k b = c)) with
         | some b => v b
         | none => PVal.nan) := by
  unfold getCellA
  rw [find?_map_key]
  cases l.find? (fun b => decide (k b = c)) <;> rfl

/-- mergeRow changes no row field other than the cells. -/
theorem mergeRow_fields (obsT : List FracRow) (lcs : List String) (r : PrjRow) :
    (mergeRow obsT lcs r).region_id = r.region_id ∧
      (mergeRow obsT lcs r).metric_id = r.metric_id ∧
      (mergeRow obsT lcs r).landclass = r.landclass :=
  ⟨rfl, rfl, rfl⟩

/-- A cell present before the merge keeps its value after the merge. -/
theorem getCellA_mergeRow_left (obsT : List FracRow) (lcs : List String) (r : PrjRow)
    (c : String) (hs : (r.cells.find? (fun p => decide (p.1 = c))).isSome) :
    getCellA (mergeRow obsT lcs r).cells c = getCellA r.cells c := by
  unfold mergeRow
  simp only
  exact getCellA_append_left _ _ c hs

/-- The fraction cell appended by the merge: the matching fraction row's
value, or NaN when the composite key has no match, provided the
original cells do not collide with the fraction column name. -/
theorem getCellA_mergeRow_frac (obsT : List FracRow) (lcs : List String) (r : PrjRow)
    (lc : String) (hlc : lc ∈ lcs)
    (hno : ∀ p ∈ r.cells, ¬ p.1 = "frac_" ++ lc) :
    getCellA (mergeRow obsT lcs r).cells ("frac_" ++ lc)
      = (match obsT.find? (fun t => decide (t.key = compKey r)) with
         | some fr => getCellA fr.fracs ("frac_" ++ lc)
         | none => PVal.nan) := by
  have hleft : r.cells.find? (fun p => decide (p.1 = "frac_" ++ lc)) = none :=
    List.find?_eq_none.mpr (fun p hp => by simpa using hno p hp)
  unfold mergeRow
  simp only
  rw [getCellA_append_right _ _ _ hleft]
  rw [getCellA_map_key (fun lc' => "frac_" ++ lc')
    (fun lc' => match obsT.find? (fun t => decide (t.key = compKey r)) with
      | some fr => getCellA fr.fracs ("frac_" ++ lc')
      | none => PVal.nan) lcs ("frac_" ++ lc)]
  rw [find?_congr_pred (fun lc' => decide ("frac_" ++ lc' = "frac_" ++ lc))
    (fun lc' => decide (lc' = lc))
    (fun lc' => decide_eq_decide.mpr (string_append_left_cancel_iff "frac_" lc' lc)) lcs]
  rw [find?_eq_self_of_mem lc lcs hlc]

/-- A cell outside the helper columns survives the helper-column drop
unchanged. -/
theorem getCellA_dropHelperCells (metric : String) (lcs : List String) (r : PrjRow)
    (c : String) (hc : ¬ c ∈ helperNames metric lcs) :
    getCellA (dropHelperCells metric lcs r).cells c = getCellA r.cells c := by
  unfold dropHelperCells getCellA
  simp only
  rw [find?_filter_keep r.cells (fun p => decide (p.1 = c))
    (fun p => decide (¬ p.1 ∈ helperNames metric lcs))
    (fun p hp => by
      have : p.1 = c := of_decide_eq_true hp
      simp [this, hc])]

/-- dropHelperCells changes no row field other than the cells. -/
theorem dropHelperCells_fields (metric : String) (lcs : List String) (r : PrjRow) :
    (dropHelperCells metric lcs r).region_id = r.region_id ∧
      (dropHelperCells metric lcs r).metric_id = r.metric_id ∧
      (dropHelperCells metric lcs r).landclass = r.landclass :=
  ⟨rfl, rfl, rfl⟩

/-- Dropping the helper cells undoes the merge on a row whose original
cells avoid the helper column names. -/
theorem drop_merge_eq (obsT : List FracRow) (metric : String) (lcs : List String) (r : PrjRow)
    (hclean : ∀ p ∈ r.cells, ¬ p.1 ∈ helperNames metric lcs) :
    dropHelperCells metric lcs (mergeRow obsT lcs r) = r := by
  obtain ⟨rid, mid, lcl, cls⟩ := r
  unfold dropHelperCells mergeRow
  simp only [PrjRow.mk.injEq, true_and]
  rw [List.filter_append]
  have h1 : cls.filter (fun p => decide (¬ p.1 ∈ helperNames metric lcs)) = cls :=
    List.filter_eq_self.mpr (fun p hp => by simpa using hclean p hp)
  have h2 : (lcs.map (fun lc =>
      (("frac_" ++ lc : String),
        match obsT.find? (fun t => decide (t.key = compKey ⟨rid, mid, lcl, cls⟩)) with
        | some fr => getCellA fr.fracs ("frac_" ++ lc)
        | none => PVal.nan))).filter
        (fun p => decide (¬ p.1 ∈ helperNames metric lcs)) = [] := by
    rw [List.filter_eq_nil_iff]
    intro p hp
    obtain ⟨lc, hlc, hpe⟩ := List.mem_map.mp hp
    have hp1 : p.1 = "frac_" ++ lc := by rw [← hpe]
    have hmem : p.1 ∈ helperNames metric lcs := by
      rw [hp1]
      exact List.mem_append_left _ (List.mem_map.mpr ⟨lc, hlc, rfl⟩)
    simp [hmem]
  rw [h1, h2, List.append_nil]

/-- A flatten of all-empty blocks is empty. -/
theorem flatten_map_nil {α β : Type} (L : List α) :
    (L.map (fun _ => ([] : List β))).flatten = [] := by
  induction L with
  | nil => rfl
  | cons a t ih => simp [ih]

/-- Structure of the disaggregated rows: the per-landclass replacement
blocks in reverse class-list order, followed by the pass-through rows,
all stripped of the helper cells. -/
theorem disagg_rows_structure (obs : List ObsRow) (prj : PrjTable) (target : String)
    (lcs : List String) (metric : String) (gcam_year_list : List Nat) :
    (DemeterLandclassSplit.disaggregate_landclass obs prj target lcs metric gcam_year_list).rows
      = ((lcs.reverse.map (fun lc =>
            ((prj.rows.map (mergeRow (DemeterLandclassSplit.calc_observed_fraction obs lcs) lcs)).filter
                (fun r => decide (r.landclass = target))).map
              (fun r => dropHelperCells metric lcs
                (applyFrac (gcam_year_list.map (fun i => toString i)) lc r)))).flatten)
        ++ ((prj.rows.map (mergeRow (DemeterLandclassSplit.calc_observed_fraction obs lcs) lcs)).filter
              (fun r => decide (¬ r.landclass = target))).map (dropHelperCells metric lcs) := by
  unfold DemeterLandclassSplit.disaggregate_landclass dropProcessing
  simp only
  rw [foldl_prepend]
  rw [List.map_append, List.map_flatten, List.map_map]
  congr 1
  congr 1
  exact List.map_congr_left (fun lc _ => by simp [Function.comp, List.map_map])

/-! ## Claims -/

/-- C2: for every category string with enough delimiter-separated
tokens, the decoded landclass base is token0 joined with token1 when
token1 is a compound-base (broken landclass) token, with the sub-basin
taken from token2; otherwise the base is token0 and the sub-basin is
token1; the use suffix is "_IRR" when an irrigated marker occurs among
the tokens, else "_RFD" when a rainfed marker occurs, else empty; and
the final landclass is the base followed by the suffix. -/
theorem C2_category_decoding (x t0 t1 : String) (rest : List String)
    (hsplit : splitCategory x = t0 :: t1 :: rest) :
    parse_use x = (if "IRR" ∈ t0 :: t1 :: rest then "_IRR"
      else if "RFD" ∈ t0 :: t1 :: rest then "_RFD" else "") ∧
    (t1 ∈ GCAM_BROKEN_LANDCLASSES → ∀ t2 : String, ∀ r2 : List String, rest = t2 :: r2 →
      parse_landclass x = some (t0 ++ "_" ++ t1) ∧ parse_basin_name x = some t2 ∧
      decode_category x = .ok (t0 ++ "_" ++ t1 ++ (if "IRR" ∈ t0 :: t1 :: rest then "_IRR"
        else if "RFD" ∈ t0 :: t1 :: rest then "_RFD" else ""), t2)) ∧
    (¬ t1 ∈ GCAM_BROKEN_LANDCLASSES →
      parse_landclass x = some t0 ∧ parse_basin_name x = some t1 ∧
      decode_category x = .ok (t0 ++ (if "IRR" ∈ t0 :: t1 :: rest then "_IRR"
        else if "RFD" ∈ t0 :: t1 :: rest then "_RFD" else ""), t1)) := by
  have hIRR : ("_" : String) ++ "IRR" = "_IRR" := by decide
  have hRFD : ("_" : String) ++ "RFD" = "_RFD" := by decide
  have hu : parse_use x = (if "IRR" ∈ t0 :: t1 :: rest then "_IRR"
      else if "RFD" ∈ t0 :: t1 :: rest then "_RFD" else "") := by
    simp only [parse_use, hsplit, GCAM_IRR_NAME, GCAM_RFD_NAME, GCAM_LANDCLASS_DELIM, hIRR, hRFD]
  refine ⟨hu, ?_, ?_⟩
  · intro hb t2 r2 hrest
    subst hrest
    have hlc : parse_landclass x = some (t0 ++ "_" ++ t1) := by
      simp only [parse_landclass, hsplit, GCAM_LANDCLASS_DELIM]
      rw [if_pos hb]
    have hbn : parse_basin_name x = some t2 := by
      simp only [parse_basin_name, hsplit]
      rw [if_pos hb]
      rfl
    refine ⟨hlc, hbn, ?_⟩
    simp only [decode_category, hlc, hbn, hu]
  · intro hb
    have hlc : parse_landclass x = some t0 := by
      simp only [parse_landclass, hsplit]
      rw [if_neg hb]
    have hbn : parse_basin_name x = some t1 := by
      simp only [parse_basin_name, hsplit]
      rw [if_neg hb]
    refine ⟨hlc, hbn, ?_⟩
    simp only [decode_category, hlc, hbn, hu]

/-- C2 witness: the two example category strings of the spec decode as
claimed. -/
theorem C2_category_decoding_witness :
    decode_category "biomass_grass_AmazonBasin_IRR" = .ok ("biomass_grass_IRR", "AmazonBasin") ∧
    decode_category "Corn_AmazonBasin_RFD" = .ok ("Corn_RFD", "AmazonBasin") := by
  constructor
  · have h := (C2_category_decoding "biomass_grass_AmazonBasin_IRR" "biomass" "grass"
      ["AmazonBasin", "IRR"] (by decide)).2.1 (by decide) "AmazonBasin" ["IRR"] rfl
    exact h.2.2.trans (by decide)
  · have h := (C2_category_decoding "Corn_AmazonBasin_RFD" "Corn" "AmazonBasin"
      ["RFD"] (by decide)).2.2 (by decide)
    exact h.2.2.trans (by decide)

/-- C6: decoding a category string signals the malformed-category error
(the IndexError of the source, named MalformedCategoryError by the
spec) exactly when the token count is insufficient for the fixed
token-position indexing; no partial decode is produced (the error
result carries no fields). -/
theorem C6_malformed_category_error (x : String) :
    decode_category x = .error .malformedCategory
      ↔ tokensInsufficient (splitCategory x) = true := by
  rcases hs : splitCategory x with _ | ⟨t0, _ | ⟨t1, rest⟩⟩
  · simp [decode_category, parse_landclass, parse_basin_name, tokensInsufficient, hs]
  · simp [decode_category, parse_landclass, parse_basin_name, tokensInsufficient, hs]
  · by_cases hb : t1 ∈ GCAM_BROKEN_LANDCLASSES
    · cases rest with
      | nil => simp [decode_category, parse_landclass, parse_basin_name, tokensInsufficient, hs, hb]
      | cons t2 r2 =>
        simp [decode_category, parse_landclass, parse_basin_name, tokensInsufficient, hs, hb]
    · simp [decode_category, parse_landclass, parse_basin_name, tokensInsufficient, hs, hb]

/-- C5 counterexample: on a projected table carrying every hard-coded
year column 2010, 2015, ..., 2100 (so both implementations run all
their column assignments), process_basin and disaggregate_landclass
(run with that same year list) differ: process_basin keeps the helper
fraction columns and the combined subregion key column that
disaggregate_landclass drops. -/
theorem C5_counterexample :
    LandclassRedistribute.process_basin [⟨1, 10, [("snow", 1), ("sparse", 1)]⟩]
        ⟨["region_id", "metric_id", "landclass"]
           ++ (List.range' 2010 19 5).map (fun i => toString i),
         [⟨1, 10, "RockIceDesert",
           (List.range' 2010 19 5).map (fun i => (toString i, PVal.num 4))⟩]⟩
        "RockIceDesert" ["snow", "sparse"] "basin_id"
      ≠ DemeterLandclassSplit.disaggregate_landclass [⟨1, 10, [("snow", 1), ("sparse", 1)]⟩]
        ⟨["region_id", "metric_id", "landclass"]
           ++ (List.range' 2010 19 5).map (fun i => toString i),
         [⟨1, 10, "RockIceDesert",
           (List.range' 2010 19 5).map (fun i => (toString i, PVal.num 4))⟩]⟩
        "RockIceDesert" ["snow", "sparse"] "basin_id" (List.range' 2010 19 5) := by
  intro h
  have hc := congrArg PrjTable.cols h
  revert hc
  set_option maxRecDepth 10000 in
  with_unfolding_all decide

/-- C5 amended: the two disaggregation implementations embody the same
algorithm: invoked with the year list 2010, 2015, ..., 2100,
disaggregate_landclass produces exactly process_basin's output after
the helper fraction columns and the combined subregion key column are
dropped from the latter; the outputs as returned differ by exactly
those retained columns. -/
theorem C5_unified_after_drop (obs : List ObsRow) (prj : PrjTable) (target : String)
    (lcs : List String) (metric : String) :
    dropProcessing metric lcs (LandclassRedistribute.process_basin obs prj target lcs metric)
      = DemeterLandclassSplit.disaggregate_landclass obs prj target lcs metric
          (List.range' 2010 19 5) := rfl

/-- C10: the rows of disaggregate_landclass's output are the replacement
blocks followed by the pass-through rows; the blocks appear in reverse
order of the supplied fine-grained class list, and each block maps the
target rows in their original relative order. -/
theorem C10_output_ordering (obs : List ObsRow) (prj : PrjTable) (target : String)
    (lcs : List String) (metric : String) (gcam_year_list : List Nat) :
    (DemeterLandclassSplit.disaggregate_landclass obs prj target lcs metric gcam_year_list).rows
      = ((lcs.reverse.map (fun lc =>
            ((prj.rows.map (mergeRow (DemeterLandclassSplit.calc_observed_fraction obs lcs) lcs)).filter
                (fun r => decide (r.landclass = target))).map
              (fun r => dropHelperCells metric lcs
                (applyFrac (gcam_year_list.map (fun i => toString i)) lc r)))).flatten)
        ++ ((prj.rows.map (mergeRow (DemeterLandclassSplit.calc_observed_fraction obs lcs) lcs)).filter
              (fun r => decide (¬ r.landclass = target))).map (dropHelperCells metric lcs) :=
  disagg_rows_structure obs prj target lcs metric gcam_year_list

/-- C4 counterexample: an observed table whose class sums are nonzero
but cancel to a zero total produces infinite fractions, not zeros: the
pandas division yields signed infinities, which fillna(0) leaves in
place. -/
theorem C4_zero_total_counterexample :
    groupTotal [⟨1, 10, [("a", 5), ("b", -5)]⟩] ["a", "b"] (1, 10) = 0 ∧
    DemeterLandclassSplit.calc_observed_fraction [⟨1, 10, [("a", 5), ("b", -5)]⟩] ["a", "b"]
      = [⟨"1_10", [("frac_a", PVal.inf), ("frac_b", PVal.neginf)]⟩] ∧
    PVal.inf ≠ PVal.num 0 := by
  with_unfolding_all decide

/-- C4 amended: for every group key of the observed table, when the
combined total is nonzero the fraction row holds exactly the class
sums divided by the total and those fractions sum to 1; when the total
is zero and every class sum at the key is also zero (in particular
whenever the observed values are nonnegative), every fraction is
filled to exactly 0.  A zero total with a nonzero class sum instead
yields a signed infinity that fillna does not replace. -/
theorem C4_fraction_calculator (obs : List ObsRow) (lcs : List String) (k : Int × Int)
    (hk : k ∈ groupKeys obs) :
    (groupTotal obs lcs k ≠ 0 →
      (FracRow.mk (toString k.1 ++ "_" ++ toString k.2)
          (lcs.map (fun lc => ("frac_" ++ lc,
            PVal.num (classSum obs k lc / groupTotal obs lcs k))))
        ∈ DemeterLandclassSplit.calc_observed_fraction obs lcs) ∧
      (lcs.map (fun lc => classSum obs k lc / groupTotal obs lcs k)).sum = 1) ∧
    (groupTotal obs lcs k = 0 → (∀ lc ∈ lcs, classSum obs k lc = 0) →
      (FracRow.mk (toString k.1 ++ "_" ++ toString k.2)
          (lcs.map (fun lc => ("frac_" ++ lc, PVal.num 0)))
        ∈ DemeterLandclassSplit.calc_observed_fraction obs lcs)) := by
  constructor
  · intro hT
    constructor
    · apply List.mem_map.mpr
      refine ⟨k, hk, ?_⟩
      simp only [FracRow.mk.injEq, true_and]
      apply List.map_congr_left
      intro lc _
      simp only [Prod.mk.injEq, true_and]
      simp only [divP]
      rw [if_neg hT]
      rfl
    · rw [sum_map_div]
      exact div_self hT
  · intro hT hs
    apply List.mem_map.mpr
    refine ⟨k, hk, ?_⟩
    simp only [FracRow.mk.injEq, true_and]
    apply List.map_congr_left
    intro lc hlc
    simp only [Prod.mk.injEq, true_and]
    rw [hs lc hlc, hT]
    simp [divP, fill0]

/-- C4 witness: the spec's end-to-end observed table (snow 30, sparse
70) yields a fraction row whose fractions sum to 1. -/
theorem C4_fraction_calculator_witness :
    (FracRow.mk (toString (1 : Int) ++ "_" ++ toString (10 : Int))
        (["snow", "sparse"].map (fun lc => ("frac_" ++ lc,
          PVal.num (classSum [⟨1, 10, [("snow", 30), ("sparse", 70)]⟩] (1, 10) lc
            / groupTotal [⟨1, 10, [("snow", 30), ("sparse", 70)]⟩] ["snow", "sparse"] (1, 10)))))
      ∈ DemeterLandclassSplit.calc_observed_fraction
          [⟨1, 10, [("snow", 30), ("sparse", 70)]⟩] ["snow", "sparse"]) ∧
    (["snow", "sparse"].map (fun lc =>
        classSum [⟨1, 10, [("snow", 30), ("sparse", 70)]⟩] (1, 10) lc
          / groupTotal [⟨1, 10, [("snow", 30), ("sparse", 70)]⟩] ["snow", "sparse"] (1, 10))).sum
      = 1 :=
  (C4_fraction_calculator [⟨1, 10, [("snow", 30), ("sparse", 70)]⟩] ["snow", "sparse"] (1, 10)
    (by with_unfolding_all decide)).1 (by with_unfolding_all decide)

/-- C9: when every observed value of the listed classes is nonnegative,
every fraction produced by calc_observed_fraction is a plain rational
in the closed interval from 0 to 1. -/
theorem C9_fraction_bounds (obs : List ObsRow) (lcs : List String)
    (hnn : ∀ r ∈ obs, ∀ lc ∈ lcs, 0 ≤ lookupRat r.vals lc) :
    ∀ fr ∈ DemeterLandclassSplit.calc_observed_fraction obs lcs, ∀ p ∈ fr.fracs,
      ∃ q : ℚ, p.2 = PVal.num q ∧ 0 ≤ q ∧ q ≤ 1 := by
  intro fr hfr p hp
  obtain ⟨k, hk, hfre⟩ := List.mem_map.mp hfr
  rw [← hfre] at hp
  obtain ⟨lc, hlc, hpe⟩ := List.mem_map.mp hp
  have hcs : ∀ lc' ∈ lcs, 0 ≤ classSum obs k lc' := by
    intro lc' hlc'
    apply List.sum_nonneg
    intro x hx
    obtain ⟨r, hr, hxe⟩ := List.mem_map.mp hx
    rw [← hxe]
    exact hnn r (List.mem_of_mem_filter hr) lc' hlc'
  have hT0 : 0 ≤ groupTotal obs lcs k := by
    apply List.sum_nonneg
    intro x hx
    obtain ⟨lc', hlc', hxe⟩ := List.mem_map.mp hx
    rw [← hxe]
    exact hcs lc' hlc'
  have hsT : classSum obs k lc ≤ groupTotal obs lcs k := by
    apply List.single_le_sum
    · intro x hx
      obtain ⟨lc', hlc', hxe⟩ := List.mem_map.mp hx
      rw [← hxe]
      exact hcs lc' hlc'
    · exact List.mem_map_of_mem (classSum obs k) hlc
  by_cases hT : groupTotal obs lcs k = 0
  · refine ⟨0, ?_, le_refl 0, zero_le_one⟩
    have hs : classSum obs k lc = 0 := le_antisymm (hT ▸ hsT) (hcs lc hlc)
    rw [← hpe]
    simp [divP, fill0, hs, hT]
  · refine ⟨classSum obs k lc / groupTotal obs lcs k, ?_,
      div_nonneg (hcs lc hlc) hT0, ?_⟩
    · rw [← hpe]
      simp only [divP]
      rw [if_neg hT]
      rfl
    · exact (div_le_one (lt_of_le_of_ne hT0 (Ne.symm hT))).mpr hsT

/-- C9 witness: the snow fraction of the end-to-end example is a
rational between 0 and 1. -/
theorem C9_fraction_bounds_witness :
    ∃ q : ℚ, (("frac_snow", PVal.num (3/10)) : String × PVal).2 = PVal.num q ∧ 0 ≤ q ∧ q ≤ 1 :=
  C9_fraction_bounds [⟨1, 10, [("snow", 30), ("sparse", 70)]⟩] ["snow", "sparse"]
    (by with_unfolding_all decide)
    ⟨"1_10", [("frac_snow", PVal.num (3/10)), ("frac_sparse", PVal.num (7/10))]⟩
    (by with_unfolding_all decide)
    ("frac_snow", PVal.num (3/10)) (by with_unfolding_all decide)

/-- Decoding a query row preserves its year. -/
theorem mapRow_year (dreg dbas : List (String × Int)) (q : QueryRow) (m : MappedRow)
    (h : mapRow dreg dbas q = some m) : m.year = q.year := by
  unfold mapRow at h
  revert h
  cases decode_category q.land_allocation with
  | error e => intro h; cases h
  | ok v =>
    obtain ⟨lc, b⟩ := v
    intro h
    rw [← Option.some.inj h]

/-- Every pivot input row carries the year of a decoded row. -/
theorem pivotInputOf_year (rows : List MappedRow) (p : PivIn) (hp : p ∈ pivotInputOf rows) :
    ∃ m ∈ rows, p.year = m.year := by
  obtain ⟨m, hm, hsome⟩ := List.mem_filterMap.mp hp
  refine ⟨m, hm, ?_⟩
  revert hsome
  cases m.region_id with
  | none => intro hsome; cases hsome
  | some rid =>
    cases m.metric_id with
    | none => intro hsome; cases hsome
    | some mid =>
      intro hsome
      rw [← Option.some.inj hsome]

/-- C8: under a well-formed query result (every filtered row decodes),
extract_land signals the missing-output-path error exactly when CSV
output is requested with no output path configured; the error result
carries no write.  When CSV output is not requested the pivoted table
is returned with no write regardless of the configured path, and when
a path is configured the pivoted table is returned with the write
recorded to that path. -/
theorem C8_missing_output_path (qrows : List QueryRow) (l_yrs : List Int)
    (dreg dbas : List (String × Int)) (b : Bool) (fo : Option String)
    (hparse : ∀ q ∈ filteredRows qrows l_yrs, (mapRow dreg dbas q).isSome) :
    (extract_land qrows l_yrs dreg dbas b fo = .error .missingOutputPath
      ↔ b = true ∧ fo = none) ∧
    (b = false → extract_land qrows l_yrs dreg dbas b fo
        = .ok (pivot (pivotInputOf (mappedRowsSpec dreg dbas qrows l_yrs)), none)) ∧
    (∀ p : String, b = true → fo = some p → extract_land qrows l_yrs dreg dbas b fo
        = .ok (pivot (pivotInputOf (mappedRowsSpec dreg dbas qrows l_yrs)), some p)) := by
  have hM := applyColumn_eq_some (mapRow dreg dbas) (filteredRows qrows l_yrs) hparse
  unfold extract_land
  rw [hM]
  simp only [mappedRowsSpec]
  cases b with
  | false => simp
  | true =>
    cases fo with
    | none => simp
    | some p => simp

/-- C8 witness: requesting CSV output with no configured path on an
empty query result signals the missing-output-path error. -/
theorem C8_missing_output_path_witness :
    extract_land [] [2010] [] [] true none = .error .missingOutputPath :=
  (C8_missing_output_path [] [2010] [] [] true none
    (by intro q hq; simp [filteredRows] at hq)).1.mpr ⟨rfl, rfl⟩

/-- C3 counterexample: with requested years 2010 and 2015 but input
rows only at 2010, the returned pivot has no 2015 column; and the row
whose region lookup misses ("Narnia") contributes no output row even
though its key tuple is distinct.  Both contradict the claimed
guarantee that every requested year is a column and that every
distinct key tuple has exactly one row. -/
theorem C3_pivot_counterexample :
    extract_land
        [⟨"s", "USA", "Corn_AmazonBasin_RFD", 2010, "u", 5⟩,
         ⟨"s", "Narnia", "Corn_AmazonBasin_RFD", 2010, "u", 3⟩]
        [2010, 2015] [("USA", 1)] [("AmazonBasin", 10)] false none
      = .ok (⟨[2010], [(⟨"USA", "AmazonBasin", 1, 10, "Corn_RFD"⟩, [(2010, 5)])]⟩, none) ∧
    (2015 : Int) ∈ ([2010, 2015] : List Int) ∧
    ¬ (2015 : Int) ∈ ([2010] : List Int) ∧
    "Narnia" ∈ ([⟨"s", "USA", "Corn_AmazonBasin_RFD", 2010, "u", 5⟩,
         ⟨"s", "Narnia", "Corn_AmazonBasin_RFD", 2010, "u", 3⟩] : List QueryRow).map
        (fun q => q.region) ∧
    ¬ "Narnia" ∈ ([(⟨"USA", "AmazonBasin", 1, 10, "Corn_RFD"⟩, [((2010 : Int), (5 : ℚ))])]
          : List (PivKey × List (Int × ℚ))).map (fun kr => kr.1.region) := by
  set_option maxRecDepth 4000 in
  with_unfolding_all decide

/-- C3 amended: when extract_land returns a table, that table has
exactly one row per distinct key tuple among the filtered input rows
whose region and sub-basin lookups both succeed (pivot_table drops
null-keyed rows); each cell is the sum of the matching input values,
with missing combinations filled to 0; and the year columns are
exactly the distinct years occurring in the surviving filtered rows,
each of which is a requested year.  A requested year with no surviving
row yields no column. -/
theorem C3_pivot_guarantee (qrows : List QueryRow) (l_yrs : List Int)
    (dreg dbas : List (String × Int)) (b : Bool) (fo : Option String)
    (piv : PivotTable) (w : Option String)
    (hx : extract_land qrows l_yrs dreg dbas b fo = .ok (piv, w)) :
    (piv.rows.map Prod.fst).Nodup ∧
    (∀ k : PivKey, k ∈ piv.rows.map Prod.fst
      ↔ ∃ p ∈ pivotInputOf (mappedRowsSpec dreg dbas qrows l_yrs), p.key = k) ∧
    (∀ kr ∈ piv.rows, kr.2 = piv.yearCols.map (fun y =>
      (y, (((pivotInputOf (mappedRowsSpec dreg dbas qrows l_yrs)).filter
            (fun p => decide (p.key = kr.1 ∧ p.year = y))).map (fun p => p.value)).sum))) ∧
    piv.yearCols
      = ((pivotInputOf (mappedRowsSpec dreg dbas qrows l_yrs)).map (fun p => p.year)).dedup ∧
    (∀ y ∈ piv.yearCols, y ∈ l_yrs) := by
  have hpiv : piv = pivot (pivotInputOf (mappedRowsSpec dreg dbas qrows l_yrs)) := by
    revert hx
    unfold extract_land
    cases happ : applyColumn (mapRow dreg dbas) (filteredRows qrows l_yrs) with
    | none => intro hx; cases hx
    | some M =>
      have hMf : M = (filteredRows qrows l_yrs).filterMap (mapRow dreg dbas) :=
        applyColumn_some_eq (mapRow dreg dbas) (filteredRows qrows l_yrs) M happ
      subst hMf
      simp only [mappedRowsSpec]
      cases b with
      | false =>
        intro hx
        exact (congrArg Prod.fst (Except.ok.inj hx)).symm
      | true =>
        cases fo with
        | none => intro hx; exact Except.noConfusion hx
        | some p =>
          intro hx
          exact (congrArg Prod.fst (Except.ok.inj hx)).symm
  subst hpiv
  refine ⟨?_, ?_, ?_, rfl, ?_⟩
  · simp only [pivot]
    rw [map_fst_map_pair]
    exact List.nodup_dedup _
  · intro k
    simp only [pivot]
    rw [map_fst_map_pair, List.mem_dedup, List.mem_map]
  · intro kr hkr
    simp only [pivot] at hkr ⊢
    obtain ⟨k, _, hke⟩ := List.mem_map.mp hkr
    rw [← hke]
  · intro y hy
    simp only [pivot] at hy
    rw [List.mem_dedup] at hy
    obtain ⟨p, hp, hye⟩ := List.mem_map.mp hy
    obtain ⟨m, hm, hpy⟩ := pivotInputOf_year _ p hp
    obtain ⟨q, hq, hmq⟩ := List.mem_filterMap.mp hm
    have hqy : m.year = q.year := mapRow_year dreg dbas q m hmq
    have hql : q.year ∈ l_yrs := by
      have := List.mem_filter.mp hq
      simpa using this.2
    rw [← hye, hpy, hqy]
    exact hql

/-- C3 witness: the amended pivot guarantee holds at a concrete
extraction with one well-formed query row. -/
theorem C3_pivot_guarantee_witness :
    ((⟨[2010], [(⟨"USA", "AmazonBasin", 1, 10, "Corn_RFD"⟩, [((2010 : Int), (5 : ℚ))])]⟩
        : PivotTable).rows.map Prod.fst).Nodup ∧
    (∀ y ∈ (⟨[2010], [(⟨"USA", "AmazonBasin", 1, 10, "Corn_RFD"⟩, [((2010 : Int), (5 : ℚ))])]⟩
        : PivotTable).yearCols, y ∈ ([2010] : List Int)) :=
  have h := C3_pivot_guarantee [⟨"s", "USA", "Corn_AmazonBasin_RFD", 2010, "u", 5⟩] [2010]
    [("USA", 1)] [("AmazonBasin", 10)] false none
    ⟨[2010], [(⟨"USA", "AmazonBasin", 1, 10, "Corn_RFD"⟩, [(2010, 5)])]⟩ none
    (by set_option maxRecDepth 4000 in with_unfolding_all decide)
  ⟨h.1, h.2.2.2.2⟩

/-- C7: every projected row whose landclass differs from the target
class passes through the disaggregation unchanged (given its columns
avoid the processing column names, as a projected table's do); and
when no row matches the target class, no error is possible (the
function is total), no replacement rows are produced, and the output
rows are exactly the projected rows. -/
theorem C7_passthrough_frame (obs : List ObsRow) (prj : PrjTable) (target : String)
    (lcs : List String) (metric : String) (gcam_year_list : List Nat) :
    (∀ r ∈ prj.rows, ¬ r.landclass = target →
      (∀ p ∈ r.cells, ¬ p.1 ∈ helperNames metric lcs) →
      r ∈ (DemeterLandclassSplit.disaggregate_landclass obs prj target lcs metric
          gcam_year_list).rows) ∧
    ((∀ r ∈ prj.rows, ¬ r.landclass = target) →
      (∀ r ∈ prj.rows, ∀ p ∈ r.cells, ¬ p.1 ∈ helperNames metric lcs) →
      (DemeterLandclassSplit.disaggregate_landclass obs prj target lcs metric
          gcam_year_list).rows = prj.rows) := by
  constructor
  · intro r hr hnt hclean
    rw [disagg_rows_structure obs prj target lcs metric gcam_year_list]
    apply List.mem_append_right
    apply List.mem_map.mpr
    refine ⟨mergeRow (DemeterLandclassSplit.calc_observed_fraction obs lcs) lcs r, ?_, ?_⟩
    · apply List.mem_filter.mpr
      refine ⟨List.mem_map.mpr ⟨r, hr, rfl⟩, ?_⟩
      have hm : (mergeRow (DemeterLandclassSplit.calc_observed_fraction obs lcs) lcs r).landclass
          = r.landclass := rfl
      simp [hm, hnt]
    · exact drop_merge_eq _ metric lcs r hclean
  · intro hall hcleanall
    rw [disagg_rows_structure obs prj target lcs metric gcam_year_list]
    have hlcdf : (prj.rows.map (mergeRow (DemeterLandclassSplit.calc_observed_fraction obs lcs)
        lcs)).filter (fun r => decide (r.landclass = target)) = [] := by
      rw [List.filter_eq_nil_iff]
      intro m hm
      obtain ⟨r, hr, hre⟩ := List.mem_map.mp hm
      have hlcm : m.landclass = r.landclass :=
        hre ▸ (mergeRow_fields (DemeterLandclassSplit.calc_observed_fraction obs lcs) lcs r).2.2
      simp [hlcm, hall r hr]
    rw [hlcdf]
    simp only [List.map_nil, flatten_map_nil, List.nil_append]
    have hfil : (prj.rows.map (mergeRow (DemeterLandclassSplit.calc_observed_fraction obs lcs)
        lcs)).filter (fun r => decide (¬ r.landclass = target))
        = prj.rows.map (mergeRow (DemeterLandclassSplit.calc_observed_fraction obs lcs) lcs) := by
      rw [List.filter_eq_self]
      intro m hm
      obtain ⟨r, hr, hre⟩ := List.mem_map.mp hm
      have hlcm : m.landclass = r.landclass :=
        hre ▸ (mergeRow_fields (DemeterLandclassSplit.calc_observed_fraction obs lcs) lcs r).2.2
      simp [hlcm, hall r hr]
    rw [hfil, List.map_map]
    rw [List.map_congr_left (fun r hr =>
      show (dropHelperCells metric lcs ∘
          mergeRow (DemeterLandclassSplit.calc_observed_fraction obs lcs) lcs) r = id r from
        drop_merge_eq _ metric lcs r (hcleanall r hr))]
    exact List.map_id prj.rows

/-- C7 witness: a non-target row of a concrete projected table appears
unchanged in the disaggregated output. -/
theorem C7_passthrough_frame_witness :
    (⟨1, 10, "Corn_IRR", [("2010", PVal.num 7)]⟩ : PrjRow)
      ∈ (DemeterLandclassSplit.disaggregate_landclass
          [⟨1, 10, [("snow", 30), ("sparse", 70)]⟩]
          ⟨["region_id", "metric_id", "landclass", "2010"],
           [⟨1, 10, "RockIceDesert", [("2010", PVal.num 100)]⟩,
            ⟨1, 10, "Corn_IRR", [("2010", PVal.num 7)]⟩]⟩
          "RockIceDesert" ["snow", "sparse"] "basin_id" [2010]).rows :=
  (C7_passthrough_frame [⟨1, 10, [("snow", 30), ("sparse", 70)]⟩]
      ⟨["region_id", "metric_id", "landclass", "2010"],
       [⟨1, 10, "RockIceDesert", [("2010", PVal.num 100)]⟩,
        ⟨1, 10, "Corn_IRR", [("2010", PVal.num 7)]⟩]⟩
      "RockIceDesert" ["snow", "sparse"] "basin_id" [2010]).1
    ⟨1, 10, "Corn_IRR", [("2010", PVal.num 7)]⟩
    (by with_unfolding_all decide) (by with_unfolding_all decide)
    (by with_unfolding_all decide)

/-- C1: a projected row of the target class whose composite key matches
a fraction row carrying plain fractions that sum to 1 is replaced by
one row per fine-grained class; at every listed year column holding
value V the replacement for class lc holds V times lc's fraction, and
those values summed over the classes give back V.  (The year list is
assumed free of duplicates and of collisions with the helper column
names, as the stringified GCAM years are.) -/
theorem C1_mass_conservation (obs : List ObsRow) (prj : PrjTable) (target : String)
    (lcs : List String) (metric : String) (gcam_year_list : List Nat)
    (r : PrjRow) (fr : FracRow) (f : String → ℚ) (yr : String) (V : ℚ)
    (hr : r ∈ prj.rows) (htar : r.landclass = target)
    (hclean : ∀ p ∈ r.cells, ¬ p.1 ∈ helperNames metric lcs)
    (hfr : (DemeterLandclassSplit.calc_observed_fraction obs lcs).find?
        (fun t => decide (t.key = compKey r)) = some fr)
    (hfv : ∀ lc ∈ lcs, getCellA fr.fracs ("frac_" ++ lc) = PVal.num (f lc))
    (hsum : (lcs.map f).sum = 1)
    (hyr : yr ∈ gcam_year_list.map (fun i => toString i))
    (hnd : (gcam_year_list.map (fun i => toString i)).Nodup)
    (hyf : ∀ lc ∈ lcs, ¬ ("frac_" ++ lc) ∈ gcam_year_list.map (fun i => toString i))
    (hyv : getCellA r.cells yr = PVal.num V) :
    (∀ lc ∈ lcs,
      dropHelperCells metric lcs (applyFrac (gcam_year_list.map (fun i => toString i)) lc
          (mergeRow (DemeterLandclassSplit.calc_observed_fraction obs lcs) lcs r))
        ∈ (DemeterLandclassSplit.disaggregate_landclass obs prj target lcs metric
            gcam_year_list).rows ∧
      getCellA (dropHelperCells metric lcs
          (applyFrac (gcam_year_list.map (fun i => toString i)) lc
            (mergeRow (DemeterLandclassSplit.calc_observed_fraction obs lcs) lcs r))).cells yr
        = PVal.num (V * f lc) ∧
      (dropHelperCells metric lcs (applyFrac (gcam_year_list.map (fun i => toString i)) lc
          (mergeRow (DemeterLandclassSplit.calc_observed_fraction obs lcs) lcs r))).landclass
        = lc) ∧
    (lcs.map (fun lc => V * f lc)).sum = V := by
  constructor
  · intro lc hlc
    have hfind : (r.cells.find? (fun p => decide (p.1 = yr))).isSome := by
      cases hf : r.cells.find? (fun p => decide (p.1 = yr)) with
      | none =>
        exfalso
        unfold getCellA at hyv
        rw [hf] at hyv
        cases hyv
      | some p => rfl
    have hyval : getCellA (mergeRow (DemeterLandclassSplit.calc_observed_fraction obs lcs)
        lcs r).cells yr = PVal.num V := by
      rw [getCellA_mergeRow_left _ _ _ _ hfind]
      exact hyv
    have hfcln : ∀ p ∈ r.cells, ¬ p.1 = "frac_" ++ lc := by
      intro p hp he
      exact hclean p hp (he ▸ List.mem_append_left _ (List.mem_map.mpr ⟨lc, hlc, rfl⟩))
    have hfval : getCellA (mergeRow (DemeterLandclassSplit.calc_observed_fraction obs lcs)
        lcs r).cells ("frac_" ++ lc) = PVal.num (f lc) := by
      rw [getCellA_mergeRow_frac _ lcs r lc hlc hfcln, hfr]
      exact hfv lc hlc
    have happ : getCellA (applyFrac (gcam_year_list.map (fun i => toString i)) lc
        (mergeRow (DemeterLandclassSplit.calc_observed_fraction obs lcs) lcs r)).cells yr
        = PVal.num (V * f lc) := by
      rw [getCellA_applyFrac _ lc _ yr hyr hnd (hyf lc hlc), hyval, hfval]
      rfl
    have hyrname : ¬ yr ∈ helperNames metric lcs := by
      obtain ⟨p0, hp0⟩ := Option.isSome_iff_exists.mp hfind
      have hp0mem : p0 ∈ r.cells := List.mem_of_find?_eq_some hp0
      have hp0n : p0.1 = yr := by simpa using List.find?_some hp0
      exact hp0n ▸ hclean p0 hp0mem
    refine ⟨?_, ?_, ?_⟩
    · rw [disagg_rows_structure obs prj target lcs metric gcam_year_list]
      apply List.mem_append_left
      apply List.mem_flatten.mpr
      refine ⟨_, List.mem_map.mpr ⟨lc, List.mem_reverse.mpr hlc, rfl⟩, ?_⟩
      apply List.mem_map.mpr
      refine ⟨mergeRow (DemeterLandclassSplit.calc_observed_fraction obs lcs) lcs r, ?_, rfl⟩
      apply List.mem_filter.mpr
      refine ⟨List.mem_map.mpr ⟨r, hr, rfl⟩, ?_⟩
      have hm : (mergeRow (DemeterLandclassSplit.calc_observed_fraction obs lcs)
          lcs r).landclass = r.landclass := rfl
      simp [hm, htar]
    · rw [getCellA_dropHelperCells metric lcs _ yr hyrname]
      exact happ
    · exact (dropHelperCells_fields metric lcs _).2.2.trans
        (applyFrac_fields (gcam_year_list.map (fun i => toString i)) lc _).2.2
  · rw [sum_map_mul_const, hsum, mul_one]

/-- C1 witness: the spec's end-to-end scenario, a RockIceDesert row of
value 100 split with fractions 3/10 and 7/10; the snow replacement
carries 100 times 3/10 and the two replacements sum back to 100. -/
theorem C1_mass_conservation_witness :
    getCellA (dropHelperCells "basin_id" ["snow", "sparse"]
        (applyFrac (([2010] : List Nat).map (fun i => toString i)) "snow"
          (mergeRow (DemeterLandclassSplit.calc_observed_fraction
              [⟨1, 10, [("snow", 30), ("sparse", 70)]⟩] ["snow", "sparse"]) ["snow", "sparse"]
            ⟨1, 10, "RockIceDesert", [("2010", PVal.num 100)]⟩))).cells "2010"
      = PVal.num (100 * (if "snow" = "snow" then (3 : ℚ)/10 else 7/10)) ∧
    (["snow", "sparse"].map
        (fun lc => (100 : ℚ) * (if lc = "snow" then (3 : ℚ)/10 else 7/10))).sum = 100 :=
  have h := C1_mass_conservation [⟨1, 10, [("snow", 30), ("sparse", 70)]⟩]
    ⟨["region_id", "metric_id", "landclass", "2010"],
     [⟨1, 10, "RockIceDesert", [("2010", PVal.num 100)]⟩]⟩
    "RockIceDesert" ["snow", "sparse"] "basin_id" [2010]
    ⟨1, 10, "RockIceDesert", [("2010", PVal.num 100)]⟩
    ⟨"1_10", [("frac_snow", PVal.num (3/10)), ("frac_sparse", PVal.num (7/10))]⟩
    (fun lc => if lc = "snow" then (3 : ℚ)/10 else 7/10) "2010" 100
    (by with_unfolding_all decide) (by with_unfolding_all decide)
    (by with_unfolding_all decide) (by with_unfolding_all decide)
    (by with_unfolding_all decide) (by with_unfolding_all decide)
    (by with_unfolding_all decide) (by with_unfolding_all decide)
    (by with_unfolding_all decide) (by with_unfolding_all decide)
  ⟨(h.1 "snow" (by with_unfolding_all decide)).2.1, h.2⟩
